import Mathlib

/-!
Verification of the data-access layer of the preorder dashboard
(`data/shopify_api.py`, `data/data_service.py`, `data/file_io.py`).

The Python code is shallowly embedded: every external interaction
(HTTP response, file-system outcome, clock reading) is an explicit
argument, and the functions below mirror the control flow of the
source line by line.  Python exceptions are modelled by `PyResult`
(for code whose caller may observe a raised exception) or `Except`
(inside a single function body).
-/

namespace PreorderDash

/-- Result of running a Python operation, as observed by its caller:
either a normal return value or a raised exception (with its message). -/
inductive PyResult (α : Type) where
  | ok (v : α)
  | raised (msg : String)
deriving DecidableEq

/-- Whether a `PyResult` is a raised exception. -/
def PyResult.isRaised {α : Type} : PyResult α → Bool
  | .ok _ => false
  | .raised _ => true

/-!
## Commerce connector retry loop — `ShopifyConnector.run_query_with_retries`

One iteration of the `while attempt < max_retries` loop observes one of
four outcomes: a non-200 HTTP status, a response whose JSON carries an
`errors` key, a transport-level exception, or a success whose payload is
the response's `data` field.  The first three increment `attempt` and
retry; a success returns its payload immediately.  When the loop exits,
the code raises `Exception(f"Failed to execute query after {max_retries}
attempts")`.  The outcome of attempt number `i` (counting from 0) is
supplied by the environment function `att`.
-/

/-- Outcome of a single HTTP attempt inside `run_query_with_retries`. -/
inductive AttemptOutcome (α : Type) where
  | httpError (status : Nat)
  | graphqlErrors (msg : String)
  | transportExc (msg : String)
  | success (payload : α)
deriving DecidableEq

/-- The payload of an attempt, when the attempt is the `success` case. -/
def attemptPayload {α : Type} : AttemptOutcome α → Option α
  | .success p => some p
  | .httpError _ => none
  | .graphqlErrors _ => none
  | .transportExc _ => none

/-- Scan a list of attempt outcomes in order, returning the payload of
the first successful one (the retry loop returns on the first success). -/
def firstSuccess {α : Type} : List (AttemptOutcome α) → Option α
  | [] => none
  | o :: rest =>
    match attemptPayload o with
    | some p => some p
    | none => firstSuccess rest

/-- `ShopifyConnector.run_query_with_retries(query, variables, max_retries)`:
runs attempts `0, 1, ..., max_retries - 1` in order, returning the first
successful payload; if none succeeds it raises the terminal error naming
the attempt count. -/
def runQueryWithRetries {α : Type} (maxRetries : Nat)
    (att : Nat → AttemptOutcome α) : Except String α :=
  match firstSuccess ((List.range maxRetries).map att) with
  | some p => .ok p
  | none => .error ("Failed to execute query after " ++ toString maxRetries ++ " attempts")

/-- Concrete attempt schedule: two HTTP 500 failures, then a success. -/
def attemptsThenSuccess : Nat → AttemptOutcome Nat :=
  fun i => if i < 2 then AttemptOutcome.httpError 500 else AttemptOutcome.success 42

/-- Concrete attempt schedule: every attempt hits a transport exception. -/
def attemptsAllFail : Nat → AttemptOutcome Nat :=
  fun _ => AttemptOutcome.transportExc "connection timed out"

/-!
## Calendar dates

The test-data generators in `DataService` call `datetime.now().date()` and
format dates with `strftime('%Y-%m-%d')`.  A date is modelled as the
number of days since 1970-01-01 (a `Nat`; all dates the dashboard handles
are far later).  `civilFromDays` is the standard civil-from-days
conversion; `dateStr` renders `YYYY-MM-DD` exactly as `strftime` does.
-/

/-- Convert a day count (days since 1970-01-01) to `(year, month, day)`. -/
def civilFromDays (z : Nat) : Nat × Nat × Nat :=
  let z' := z + 719468
  let era := z' / 146097
  let doe := z' % 146097
  let yoe := (doe - doe / 1460 + doe / 36524 - doe / 146096) / 365
  let y := yoe + era * 400
  let doy := doe - (365 * yoe + yoe / 4 - yoe / 100)
  let mp := (5 * doy + 2) / 153
  let d := doy - (153 * mp + 2) / 5 + 1
  let m := if mp < 10 then mp + 3 else mp - 9
  (if m ≤ 2 then y + 1 else y, m, d)

/-- Zero-pad a number to two digits, as `%m`/`%d` do. -/
def pad2 (n : Nat) : String :=
  if n < 10 then "0" ++ toString n else toString n

/-- `strftime('%Y-%m-%d')` on the date `z` days after 1970-01-01. -/
def dateStr (z : Nat) : String :=
  match civilFromDays z with
  | (y, m, d) => toString y ++ "-" ++ pad2 m ++ "-" ++ pad2 d

/-!
## Products — `ShopifyConnector.get_products_from_collection`

A product record as the connector returns it (and as the facade's test
data produces it): `{id, title, barcode, pub_date, collections}`.
-/

/-- The product dictionary built by the connector and by the test data. -/
structure Product where
  id : String
  title : String
  barcode : Option String
  pub_date : Option String
  collections : List String
deriving DecidableEq

/-- One node of `collectionByHandle.products.edges` in the GraphQL
response: the fields the query requests.  `variantEdges` holds the
(possibly absent) `barcode` of each variant node; `metafieldEdges` holds
`(key, value)` pairs; `collectionEdges` holds collection titles. -/
structure ProductNode where
  id : String
  title : String
  variantEdges : List (Option String)
  metafieldEdges : List (String × String)
  collectionEdges : List String
deriving DecidableEq

/-- The `collectionByHandle` field of the response `data`: the key may be
absent (`.get` then yields `{}` and the edge list is empty), may be JSON
`null` (Python then raises `AttributeError` on `.get`), or may hold the
product edges. -/
inductive CollectionField where
  | absent
  | null
  | present (edges : List ProductNode)
deriving DecidableEq

/-- The `data` payload of the collection-products query. -/
structure CollectionData where
  collectionByHandle : CollectionField
deriving DecidableEq

/-- `product['variants']['edges']` truthiness check followed by
`edges[0]['node'].get('barcode')`: `None` when the edge list is empty. -/
def firstVariantBarcode : List (Option String) → Option String
  | [] => none
  | b :: _ => b

/-- Scan the metafield edges for the entry keyed `pub_date` (first match
wins, the Python loop breaks). -/
def findPubDate : List (String × String) → Option String
  | [] => none
  | (k, v) :: rest => if k == "pub_date" then some v else findPubDate rest

/-- Build the product dictionary from one GraphQL node, exactly as the
loop body of `get_products_from_collection` does. -/
def extractProduct (p : ProductNode) : Product :=
  { id := p.id
    title := p.title
    barcode := firstVariantBarcode p.variantEdges
    pub_date := findPubDate p.metafieldEdges
    collections := p.collectionEdges }

/-- The `try` body of `get_products_from_collection`: run the query with
retries (an exhausted retry raises), then navigate
`data.get('collectionByHandle', {}).get('products', {}).get('edges', [])`
and build the product list.  `Except.error` is a raised exception. -/
def getProductsBody (maxRetries : Nat)
    (att : Nat → AttemptOutcome CollectionData) : Except String (List Product) :=
  match runQueryWithRetries maxRetries att with
  | .error m => .error m
  | .ok data =>
    match data.collectionByHandle with
    | .null => .error "AttributeError: NoneType has no attribute get"
    | .absent => .ok []
    | .present edges => .ok (edges.map extractProduct)

/-- `ShopifyConnector.get_products_from_collection`: the `try` body with
its `except` clause, which logs and returns `[]`. -/
def getProductsFromCollection (maxRetries : Nat)
    (att : Nat → AttemptOutcome CollectionData) : List Product :=
  match getProductsBody maxRetries att with
  | .ok ps => ps
  | .error _ => []

/-!
## Facade — `DataService.get_preorder_products` (non-test mode)

The facade observes the connector call as either a raised exception or a
returned value (`None` or a list); `ConnectorResult` is that observation.
-/

/-- What a call into a connector method looks like from the facade:
it raises, or returns `None`, or returns a value. -/
inductive ConnectorResult (α : Type) where
  | raises (msg : String)
  | returns (v : Option α)
deriving DecidableEq

/-- `DataService._get_test_preorder_products(limit)`: five fixed products
whose `pub_date` fields are computed from `datetime.now().date()`
(`today`), truncated to `limit` by the slice `[:limit]`. -/
def testPreorderProducts (today : Nat) (limit : Nat) : List Product :=
  ([{ id := "gid://shopify/Product/1111111111"
      title := "Future Release Book"
      barcode := some "9781234567890"
      pub_date := some (dateStr (today + 30))
      collections := ["Preorder", "Fiction"] },
    { id := "gid://shopify/Product/2222222222"
      title := "Recent Release Book"
      barcode := some "9781234567891"
      pub_date := some (dateStr (today - 3))
      collections := ["Preorder", "Non-fiction"] },
    { id := "gid://shopify/Product/3333333333"
      title := "Past Due Book"
      barcode := some "9781234567892"
      pub_date := some (dateStr (today - 60))
      collections := ["Preorder", "Science Fiction"] },
    { id := "gid://shopify/Product/4444444444"
      title := "Missing Date Book"
      barcode := some "9781234567893"
      pub_date := none
      collections := ["Preorder", "Mystery"] },
    { id := "gid://shopify/Product/5555555555"
      title := "Malformed Date Book"
      barcode := some "9781234567894"
      pub_date := some "Coming Soon"
      collections := ["Preorder", "Poetry"] }] : List Product).take limit

/-- `DataService.get_preorder_products(limit)` in non-test mode: call the
connector; `if products is not None: return products`, else fall back to
the test data; any raised exception also falls back to the test data. -/
def getPreorderProducts (today limit : Nat)
    (conn : ConnectorResult (List Product)) : List Product :=
  match conn with
  | .raises _ => testPreorderProducts today limit
  | .returns none => testPreorderProducts today limit
  | .returns (some ps) => ps

/-- The connector call as the facade observes it: the `except` clause of
`get_products_from_collection` converts any raised exception into a
returned `[]`, so the observation is always a returned list. -/
def shopifyCollectionObservable (maxRetries : Nat)
    (att : Nat → AttemptOutcome CollectionData) : ConnectorResult (List Product) :=
  match getProductsBody maxRetries att with
  | .ok ps => ConnectorResult.returns (some ps)
  | .error _ => ConnectorResult.returns (some [])

/-!
## Approval-body parsing — `DataService._parse_issue_body`

The method splits the body on newlines and, per line, applies
`re.search(r'\|\s*\[x\]', line, re.IGNORECASE)` and then
`re.search(r'\|\s*\[x\]\s*\|\s*([0-9]+)', line, re.IGNORECASE)`,
appending group 1 when the second search matches.  Both patterns are
embedded as deterministic matchers: each `\s*` and the final `[0-9]+`
are greedy runs followed by a character outside their class, so maximal
munch at each start position is exactly Python's semantics, and
`re.search` tries start positions left to right.  `re.IGNORECASE` makes
`[x]` match `x` or `X`.  `\s` is modelled on the characters it matches
in these ASCII table rows. -/
def isRegexSpace (c : Char) : Bool :=
  c == ' ' || c == '\t' || c == '\n' || c == '\x0b' || c == '\x0c' || c == '\r'

/-- Greedily consume a `\s*` run. -/
def skipSpaces : List Char → List Char
  | [] => []
  | c :: rest => if isRegexSpace c then skipSpaces rest else c :: rest

/-- Greedily split off a `[0-9]+`-style digit run (possibly empty). -/
def takeDigits : List Char → List Char × List Char
  | [] => ([], [])
  | c :: rest =>
    if c.isDigit then
      let p := takeDigits rest
      (c :: p.1, p.2)
    else ([], c :: rest)

/-- After the leading `\|\s*` of the checked-box pattern: `\[x\]`
(IGNORECASE). -/
def checkedAfterPipe : List Char → Bool
  | '[' :: x :: ']' :: _ => x == 'x' || x == 'X'
  | _ => false

/-- Match `\|\s*\[x\]` (IGNORECASE) at the start of the character list. -/
def matchCheckedAt : List Char → Bool
  | '|' :: rest => checkedAfterPipe (skipSpaces rest)
  | _ => false

/-- `re.search(r'\|\s*\[x\]', line, re.IGNORECASE)`: try every start
position, left to right. -/
def searchChecked : List Char → Bool
  | [] => false
  | c :: rest => matchCheckedAt (c :: rest) || searchChecked rest

/-- The trailing `([0-9]+)` of the capture pattern (after its `\s*` has
been consumed): the greedy digit run, required non-empty. -/
def captureDigits (l : List Char) : Option String :=
  match takeDigits l with
  | ([], _) => none
  | (d :: ds, _) => some (String.mk (d :: ds))

/-- After `\[x\]` of the capture pattern: `\s*\|\s*([0-9]+)`. -/
def isbnAfterBox : List Char → Option String
  | '|' :: rest3 => captureDigits (skipSpaces rest3)
  | _ => none

/-- After the leading `\|\s*` of the capture pattern: `\[x\]` then the
rest. -/
def isbnAfterPipe : List Char → Option String
  | '[' :: x :: ']' :: rest2 =>
    if x == 'x' || x == 'X' then isbnAfterBox (skipSpaces rest2) else none
  | _ => none

/-- Match `\|\s*\[x\]\s*\|\s*([0-9]+)` (IGNORECASE) at the start of the
character list, returning capture group 1. -/
def matchIsbnAt : List Char → Option String
  | '|' :: rest => isbnAfterPipe (skipSpaces rest)
  | _ => none

/-- `re.search` with the capture pattern: first start position that
matches wins. -/
def searchIsbn : List Char → Option String
  | [] => none
  | c :: rest =>
    match matchIsbnAt (c :: rest) with
    | some s => some s
    | none => searchIsbn rest

/-- What one line contributes to `approved_isbns`: the captured digit run
when the line contains a checked box and the capture pattern matches,
nothing otherwise. -/
def lineContribution (line : String) : Option String :=
  if searchChecked line.data then searchIsbn line.data else none

/-- `DataService._parse_issue_body(issue_body)`. -/
def parseIssueBody (body : String) : List String :=
  (body.splitOn "\n").filterMap lineContribution

/-!
## Publication-date overrides — `DataService.update_pub_date_override`

The overrides CSV `overrides/pub_date_overrides.csv` has columns
`ISBN, Corrected_Pub_Date, Notes, Updated_At`.  Each call loads the file
with `pd.read_csv`, upserts in memory, and writes the frame back with
`to_csv`.  `pd.read_csv` infers column dtypes: a column whose every
entry is a non-empty digit string is parsed as integers (int64);
otherwise entries stay strings.  The date, notes and timestamp columns
contain `-`/`:`/space/letter characters and stay strings; only the ISBN
column can flip to integers.  Both the membership test
`isbn in overrides_df['ISBN'].values` and the row selection
`overrides_df['ISBN'] == isbn` compare the string argument elementwise
against the column cells, and a string never compares equal to an
integer cell.
-/

/-- A DataFrame cell after pandas dtype inference. -/
inductive Cell where
  | intv (n : Nat)
  | strv (s : String)
deriving DecidableEq

/-- One row of the overrides file on disk (CSV text). -/
structure DiskRow where
  isbn : String
  corrected : String
  notes : String
  updatedAt : String
deriving DecidableEq

/-- One row of the in-memory DataFrame. -/
structure MemRow where
  isbn : Cell
  corrected : String
  notes : String
  updatedAt : String
deriving DecidableEq

/-- pandas elementwise equality between an ISBN cell and the string
argument: integer cells never equal a string. -/
def cellEqStr (c : Cell) (s : String) : Bool :=
  match c with
  | .intv _ => false
  | .strv t => t == s

/-- A non-empty all-digit string — what `pd.read_csv` parses as int64. -/
def isDigitString (s : String) : Bool :=
  !s.isEmpty && s.data.all Char.isDigit

/-- Numeric value of a digit string. -/
def digitsToNat (l : List Char) : Nat :=
  l.foldl (fun acc c => acc * 10 + (c.toNat - '0'.toNat)) 0

/-- `pd.read_csv` on the overrides file: if every ISBN entry is a digit
string (and there is at least one row), the column dtype is integer;
otherwise the cells stay strings. -/
def readOverrides (rows : List DiskRow) : List MemRow :=
  if !rows.isEmpty && rows.all (fun r => isDigitString r.isbn) then
    rows.map fun r =>
      { isbn := Cell.intv (digitsToNat r.isbn.data), corrected := r.corrected
        notes := r.notes, updatedAt := r.updatedAt }
  else
    rows.map fun r =>
      { isbn := Cell.strv r.isbn, corrected := r.corrected
        notes := r.notes, updatedAt := r.updatedAt }

/-- Update `Corrected_Pub_Date` and `Updated_At` of the first row whose
ISBN cell equals the argument (`.index[0]` picks the first match). -/
def updateFirstRow : List MemRow → String → String → String → List MemRow
  | [], _, _, _ => []
  | r :: rest, isbn, d, now =>
    if cellEqStr r.isbn isbn then
      { r with corrected := d, updatedAt := now } :: rest
    else r :: updateFirstRow rest isbn d now

/-- The in-memory upsert: update the first matching row in place, or
append a fresh row with the fixed notes text. -/
def upsertMem (mem : List MemRow) (isbn d now : String) : List MemRow :=
  if mem.any (fun r => cellEqStr r.isbn isbn) then updateFirstRow mem isbn d now
  else mem ++ [{ isbn := Cell.strv isbn, corrected := d
                 notes := "Added via dashboard", updatedAt := now }]

/-- `to_csv` renders a cell back to CSV text. -/
def writeCell : Cell → String
  | .intv n => toString n
  | .strv s => s

/-- `DataService.update_pub_date_override(isbn, corrected_date)` in
non-test mode, as a transformation of the on-disk file (`none` = file
absent, which yields the fresh empty frame); `now` is the formatted
timestamp written into `Updated_At`. -/
def updatePubDateOverride (disk : Option (List DiskRow)) (isbn d now : String) :
    List DiskRow :=
  let mem := match disk with
    | none => []
    | some rows => readOverrides rows
  (upsertMem mem isbn d now).map fun r =>
    { isbn := writeCell r.isbn, corrected := r.corrected
      notes := r.notes, updatedAt := r.updatedAt }

/-- Number of rows of the on-disk file whose ISBN text is `k`. -/
def countIsbnRows (rows : List DiskRow) (k : String) : Nat :=
  (rows.filter (fun r => r.isbn == k)).length

/-- The overrides file after `update_pub_date_override("9781234567890",
"2025-01-01")` starting from an absent file. -/
def overridesAfterFirstCall : List DiskRow :=
  updatePubDateOverride none "9781234567890" "2025-01-01" "2025-01-01 10:00:00"

/-- The overrides file after the follow-up call
`update_pub_date_override("9781234567890", "2025-02-01")`. -/
def overridesAfterSecondCall : List DiskRow :=
  updatePubDateOverride (some overridesAfterFirstCall)
    "9781234567890" "2025-02-01" "2025-02-01 10:05:00"

/-- The upsert logic itself (one in-memory round, no CSV re-read) does
keep a single row: with at most one matching row present, one call
leaves exactly one matching row carrying the new date.  This is the
in-place branch the source intends. -/
def countMemRows (mem : List MemRow) (k : String) : Nat :=
  mem.countP (fun r => cellEqStr r.isbn k)

/-!
## Pending releases — `DataService.get_pending_releases`

The method lists the audit directory, keeps filenames starting with
`pending_releases_` and ending `.json`, sorts them in reverse
(lexicographically descending — Python string order), opens the first
and returns `json.load` of it.  Any exception (missing directory,
unreadable or malformed file) and the no-matching-files case produce
`{"pending_releases": [], "error_cases": [], "total_quantity": 0}`.

`strStartsWith`/`strEndsWith` model Python's `str.startswith`/`endswith`
at character level.
-/

/-- `name.startswith(p)`. -/
def strStartsWith (name p : String) : Bool := p.data.isPrefixOf name.data

/-- `name.endswith(s)`. -/
def strEndsWith (name s : String) : Bool := s.data.isSuffixOf name.data

/-- One entry of the `pending_releases` list of an audit document. -/
structure ReleaseEntry where
  isbn : String
  title : String
  quantity : Nat
  original_pub_date : String
  overridden_pub_date : Option String
  reason : String
deriving DecidableEq

/-- A parsed `pending_releases_*.json` document (and the method's return
shape).  `run_date` / `total_pending_books` are the extra keys the
producing process may add; the structured empty result has neither. -/
structure PendingDoc where
  pending_releases : List ReleaseEntry
  error_cases : List String
  total_quantity : Nat
  run_date : Option String
  total_pending_books : Option Nat
deriving DecidableEq

/-- `{"pending_releases": [], "error_cases": [], "total_quantity": 0}`. -/
def emptyPendingResult : PendingDoc :=
  { pending_releases := [], error_cases := [], total_quantity := 0
    run_date := none, total_pending_books := none }

/-- Python's string comparison on the underlying character (code-point)
lists: elementwise, first difference decides, a proper prefix is
smaller. -/
def charListLt : List Char → List Char → Bool
  | [], [] => false
  | [], _ :: _ => true
  | _ :: _, [] => false
  | a :: as, b :: bs =>
    if a < b then true
    else if b < a then false
    else charListLt as bs

/-- Python's `s1 < s2` on strings. -/
def strLt (a b : String) : Bool := charListLt a.data b.data

/-- Fold step of `sort(reverse=True)` followed by `[0]`: keep the
lexicographically largest name seen so far; on ties the earlier entry
stays (Python's sort is stable).  The second pair component is what
opening and parsing the file yields (`none` = open or `json.load`
raises). -/
def pickGo {α : Type} (best : String × α) :
    List (String × α) → String × α
  | [] => best
  | f :: rest => pickGo (if strLt best.1 f.1 then f else best) rest

/-- The entry with the lexicographically largest filename, if any. -/
def pickLatest {α : Type} : List (String × α) → Option (String × α)
  | [] => none
  | f :: rest => some (pickGo f rest)

/-- The filenames of the audit directory that the list comprehension
keeps: `f.startswith('pending_releases_') and f.endswith('.json')`. -/
def matchingPendingFiles (files : List (String × Option PendingDoc)) :
    List (String × Option PendingDoc) :=
  files.filter fun f =>
    strStartsWith f.1 "pending_releases_" && strEndsWith f.1 ".json"

/-- `DataService.get_pending_releases()` in non-test mode.  `listing` is
the audit directory: `none` when `os.listdir` raises (directory
missing), otherwise the directory entries paired with what reading each
file would yield. -/
def getPendingReleases (listing : Option (List (String × Option PendingDoc))) :
    PendingDoc :=
  match listing with
  | none => emptyPendingResult
  | some files =>
    match pickLatest (matchingPendingFiles files) with
    | none => emptyPendingResult
    | some (_, some doc) => doc
    | some (_, none) => emptyPendingResult

/-- The January audit document of the spec's example. -/
def janDoc : PendingDoc :=
  { pending_releases := [], error_cases := [], total_quantity := 0
    run_date := some "2025-01-01", total_pending_books := some 0 }

/-- The February audit document of the spec's example. -/
def febDoc : PendingDoc :=
  { pending_releases :=
      [{ isbn := "9780262551311", title := "Modern Chinese Foodways"
         quantity := 2, original_pub_date := "2025-03-03"
         overridden_pub_date := none, reason := "No longer in preorder status" }]
    error_cases := [], total_quantity := 2
    run_date := some "2025-02-01", total_pending_books := some 1 }

/-- An audit directory holding both example files. -/
def auditListingExample : List (String × Option PendingDoc) :=
  [("pending_releases_2025-01-01.json", some janDoc),
   ("pending_releases_2025-02-01.json", some febDoc)]

/-!
## Local file store — `FileIO.get_recent_files`

The method checks the directory, lists it, applies the optional
prefix/suffix filters (`if prefix:` / `if suffix:` — `None` or an empty
string skip the filter, modelled by `Option`), keeps regular files,
pairs each with its modification time, sorts by mtime descending
(`list.sort` is stable, so equal mtimes keep listing order), takes the
first `count`, and returns the joined paths.  Any exception in the body
is caught and yields `[]`; a missing directory yields `[]` before the
body runs.
-/

/-- A directory entry as the body observes it: name, `os.path.getmtime`
value, and whether `os.path.isfile` holds. -/
structure FileEntry where
  name : String
  mtime : Nat
  isFile : Bool
deriving DecidableEq

/-- Sorting key relation of `sort(key=mtime, reverse=True)`: `a` may
stay in front of `b` (newer or equal mtime). -/
def mtimeGe (a b : FileEntry) : Prop := b.mtime ≤ a.mtime

instance : DecidableRel mtimeGe := fun a b => Nat.decLe b.mtime a.mtime

instance : IsTotal FileEntry mtimeGe :=
  ⟨fun a b => Nat.le_total b.mtime a.mtime⟩

instance : IsTrans FileEntry mtimeGe :=
  ⟨fun _ _ _ hab hbc => Nat.le_trans hbc hab⟩

/-- Stable sort by modification time, newest first (Python's stable
`sort` with `reverse=True`). -/
def sortByMtimeDesc (l : List FileEntry) : List FileEntry :=
  List.insertionSort mtimeGe l

/-- The entries surviving the prefix filter, suffix filter, and
`os.path.isfile` check, in listing order. -/
def matchingEntries (entries : List FileEntry) (pre suf : Option String) :
    List FileEntry :=
  let l1 : List FileEntry := match pre with
    | some p => entries.filter fun e => strStartsWith e.name p
    | none => entries
  let l2 : List FileEntry := match suf with
    | some s => l1.filter fun e => strEndsWith e.name s
    | none => l1
  l2.filter fun e => e.isFile

/-- `FileIO.get_recent_files(directory, prefix, suffix, count)`.
`dirExists` is the `os.path.exists` check; `listRes` is what listing the
directory and stat-ing its entries yields (`raised` = an exception in
the body, caught to `[]`). -/
def get_recent_files (dir : String) (dirExists : Bool)
    (listRes : PyResult (List FileEntry)) (pre suf : Option String)
    (count : Nat) : PyResult (List String) :=
  if !dirExists then .ok []
  else
    match listRes with
    | .raised _ => .ok []
    | .ok entries =>
      .ok (((sortByMtimeDesc (matchingEntries entries pre suf)).take count).map
        fun e => dir ++ "/" ++ e.name)

/-- Two audit files where the lexicographically-later name has the
older modification time. -/
def recentEntriesExample : List FileEntry :=
  [{ name := "pending_releases_2025-01-01.json", mtime := 200, isFile := true },
   { name := "pending_releases_2025-02-01.json", mtime := 100, isFile := true }]

/-!
## Error boundary of the file store — `FileIO`

Each operation is modelled with the outcome of every fallible primitive
it runs as an explicit `PyResult` argument, placed exactly where the
source places the primitive relative to the `try` block.  In
`write_json`, `write_csv` and `append_csv` the `os.makedirs` call runs
BEFORE the `try`, so its failure propagates; everything else is guarded.
-/

/-- `FileIO.read_json(filepath, default)`: missing file returns the
default before the `try`; a read/parse failure inside the `try` is
caught to the default. -/
def read_json {α : Type} (fileExists : Bool) (readRes : PyResult α)
    (dflt : α) : PyResult α :=
  if !fileExists then .ok dflt
  else
    match readRes with
    | .ok v => .ok v
    | .raised _ => .ok dflt

/-- `FileIO.read_csv(filepath, default)`: same shape as `read_json`. -/
def read_csv {α : Type} (fileExists : Bool) (readRes : PyResult α)
    (dflt : α) : PyResult α :=
  if !fileExists then .ok dflt
  else
    match readRes with
    | .ok v => .ok v
    | .raised _ => .ok dflt

/-- `FileIO.write_json(data, filepath)`: `os.makedirs` runs before the
`try` and its failure propagates; a write failure inside the `try` is
caught to `False`. -/
def write_json (mkdirRes : PyResult Unit) (writeRes : PyResult Unit) :
    PyResult Bool :=
  match mkdirRes with
  | .raised m => .raised m
  | .ok _ =>
    match writeRes with
    | .ok _ => .ok true
    | .raised _ => .ok false

/-- `FileIO.write_csv(df, filepath)`: same shape as `write_json`. -/
def write_csv (mkdirRes : PyResult Unit) (writeRes : PyResult Unit) :
    PyResult Bool :=
  match mkdirRes with
  | .raised m => .raised m
  | .ok _ =>
    match writeRes with
    | .ok _ => .ok true
    | .raised _ => .ok false

/-- Python truthiness of the `fieldnames` argument (`None` and `[]` are
falsy). -/
def truthyFieldnames : Option (List String) → Bool
  | none => false
  | some [] => false
  | some (_ :: _) => true

/-- `FileIO.append_csv(data, filepath, fieldnames)`: `os.makedirs` runs
before the `try`; inside the `try`, absent fieldnames are read from the
file header (non-empty file) or taken from the first row's keys, and an
empty file with no rows and no fieldnames returns `False`; a raised
header read or write is caught to `False`. -/
def append_csv (mkdirRes : PyResult Unit) (fileNonempty : Bool)
    (fieldnames : Option (List String)) (rows : List (List (String × String)))
    (headerRes : PyResult (List String)) (writeRes : PyResult Unit) :
    PyResult Bool :=
  match mkdirRes with
  | .raised m => .raised m
  | .ok _ =>
    let fnames : PyResult (Option (List String)) :=
      if truthyFieldnames fieldnames then .ok fieldnames
      else if fileNonempty then
        match headerRes with
        | .ok h => .ok (some h)
        | .raised m => .raised m
      else
        match rows with
        | row :: _ => .ok (some (row.map Prod.fst))
        | [] => .ok none
    let inner : PyResult Bool :=
      match fnames with
      | .raised m => .raised m
      | .ok none => .ok false
      | .ok (some _) =>
        match writeRes with
        | .ok _ => .ok true
        | .raised m => .raised m
    match inner with
    | .ok b => .ok b
    | .raised _ => .ok false

/-- `FileIO.backup_file(filepath, backup_dir)`: missing file returns
`None` before the `try`; here `os.makedirs` runs INSIDE the `try`, so
both a makedirs and a copy failure are caught to `None`. -/
def backup_file (fileExists : Bool) (mkdirRes : PyResult Unit)
    (copyRes : PyResult Unit) (backupPath : String) : PyResult (Option String) :=
  if !fileExists then .ok none
  else
    let inner : PyResult (Option String) :=
      match mkdirRes with
      | .raised m => .raised m
      | .ok _ =>
        match copyRes with
        | .ok _ => .ok (some backupPath)
        | .raised m => .raised m
    match inner with
    | .ok v => .ok v
    | .raised _ => .ok none

/-!
## Remaining facade reads and the test-mode facade — `DataService`

Each non-test-mode read is modelled with its external observations as
arguments; each query method `ds…` below then dispatches on the
`test_mode` flag exactly as the source does, and additionally records
the externally visible effects (network calls, file-system access) the
taken branch performs.  The test-mode branch performs none and computes
the sample payload from the current date alone.
-/

/-- The tracking CSV as a typed frame (columns of
`NYT_preorder_tracking.csv`). -/
structure TrackingFrame where
  isbns : List String
  titles : List String
  pubDates : List (Option String)
  quantities : List Nat
  statuses : List String
deriving DecidableEq

/-- The empty frame with the fixed column set. -/
def emptyTrackingFrame : TrackingFrame :=
  { isbns := [], titles := [], pubDates := [], quantities := [], statuses := [] }

/-- `DataService.get_preorder_tracking_data()` in non-test mode: missing
file (`none`) or a raised read both yield the empty typed frame. -/
def getPreorderTrackingData (file : Option (PyResult TrackingFrame)) :
    TrackingFrame :=
  match file with
  | none => emptyTrackingFrame
  | some (.raised _) => emptyTrackingFrame
  | some (.ok df) => df

/-- Python dict insertion `d[k] = v`: overwrite in place if the key is
present, else append. -/
def assocSetCell (l : List (Cell × String)) (k : Cell) (v : String) :
    List (Cell × String) :=
  if l.any (fun q => q.1 == k) then
    l.map fun q => if q.1 == k then (q.1, v) else q
  else l ++ [(k, v)]

/-- The `overrides` dict built row by row from the frame. -/
def overridesDict (mem : List MemRow) : List (Cell × String) :=
  mem.foldl (fun acc r => assocSetCell acc r.isbn r.corrected) []

/-- `DataService.get_pub_date_overrides()` in non-test mode: missing
file or a raised read yield the empty mapping; otherwise the CSV is
read (with dtype inference) and folded into an ISBN-to-date dict. -/
def getPubDateOverridesMap (disk : Option (PyResult (List DiskRow))) :
    List (Cell × String) :=
  match disk with
  | none => []
  | some (.raised _) => []
  | some (.ok rows) => overridesDict (readOverrides rows)

/-- A GitHub issue as `get_issues` returns it (the fields
`get_approval_status` reads). -/
structure RawIssue where
  number : Nat
  title : String
  created_at : String
  state : String
  body : String
  html_url : String
deriving DecidableEq

/-- One entry of the approval-status list. -/
structure ApprovalIssue where
  issue_number : Nat
  title : String
  created_at : String
  status : String
  approved_isbns : List String
  url : String
deriving DecidableEq

/-- `DataService.get_approval_status()` in non-test mode: a raised
issue fetch is caught to `[]`; otherwise each issue body is parsed for
approved ISBNs. -/
def getApprovalStatus (issuesRes : PyResult (List RawIssue)) :
    List ApprovalIssue :=
  match issuesRes with
  | .raised _ => []
  | .ok issues => issues.map fun i =>
    { issue_number := i.number, title := i.title, created_at := i.created_at
      status := i.state, approved_isbns := parseIssueBody i.body
      url := i.html_url }

/-- `DataService._get_test_pending_releases()`: fixed entries plus the
current date as `run_date`. -/
def testPendingReleases (today : Nat) : PendingDoc :=
  { pending_releases :=
      [{ isbn := "9780262551311", title := "Modern Chinese Foodways"
         quantity := 2, original_pub_date := "2025-03-03"
         overridden_pub_date := none, reason := "No longer in preorder status" },
       { isbn := "9784756256522"
         title := "Fishes of Edo: A Guide to Classical Japanese Fishes"
         quantity := 10, original_pub_date := "2025-03-04"
         overridden_pub_date := none, reason := "No longer in preorder status" }]
    error_cases := [], total_quantity := 12
    run_date := some (dateStr today), total_pending_books := some 2 }

/-- `DataService._get_test_preorder_tracking_data()`: fixed rows whose
`Pub Date` column is computed from the current date. -/
def testTrackingFrame (today : Nat) : TrackingFrame :=
  { isbns := ["9781234567890", "9781234567891", "9781234567892",
              "9781234567893", "9781234567894"]
    titles := ["Future Release Book", "Recent Release Book", "Past Due Book",
               "Missing Date Book", "Malformed Date Book"]
    pubDates := [some (dateStr (today + 30)), some (dateStr (today - 3)),
                 some (dateStr (today - 60)), none, some "Coming Soon"]
    quantities := [5, 3, 8, 2, 4]
    statuses := ["Preorder", "Preorder", "Preorder", "Preorder", "Preorder"] }

/-- `DataService._get_test_pub_date_overrides()`: two fixed ISBNs with
dates computed from the current date. -/
def testPubDateOverrides (today : Nat) : List (Cell × String) :=
  [(Cell.strv "9781234567890", dateStr (today + 45)),
   (Cell.strv "9781234567892", dateStr (today + 15))]

/-- `DataService._get_test_approval_status()`: a fixed constant list. -/
def testApprovalStatus : List ApprovalIssue :=
  [{ issue_number := 123
     title := "Preorder Approvals for Week of March 10, 2025"
     created_at := "2025-03-10T12:00:00Z", status := "open"
     approved_isbns := ["9780262551311", "9784756256522"]
     url := "https://github.com/example/repo/issues/123" },
   { issue_number := 120
     title := "Preorder Approvals for Week of March 3, 2025"
     created_at := "2025-03-03T12:00:00Z", status := "closed"
     approved_isbns := ["9781234567895", "9781234567896"]
     url := "https://github.com/example/repo/issues/120" }]

/-- An externally visible side effect of a facade query. -/
inductive Effect where
  | networkCall (api : String)
  | fileAccess (path : String)
deriving DecidableEq

/-- `DataService.get_preorder_products(limit)` with its `test_mode`
dispatch and the effects of the taken branch. -/
def dsGetPreorderProducts (testMode : Bool) (today limit : Nat)
    (conn : ConnectorResult (List Product)) : List Effect × List Product :=
  if testMode then ([], testPreorderProducts today limit)
  else ([Effect.networkCall "shopify-graphql"], getPreorderProducts today limit conn)

/-- `DataService.get_pending_releases()` with its `test_mode` dispatch. -/
def dsGetPendingReleases (testMode : Bool) (today : Nat)
    (listing : Option (List (String × Option PendingDoc))) :
    List Effect × PendingDoc :=
  if testMode then ([], testPendingReleases today)
  else ([Effect.fileAccess "audit"], getPendingReleases listing)

/-- `DataService.get_preorder_tracking_data()` with its `test_mode`
dispatch. -/
def dsGetPreorderTracking (testMode : Bool) (today : Nat)
    (file : Option (PyResult TrackingFrame)) : List Effect × TrackingFrame :=
  if testMode then ([], testTrackingFrame today)
  else ([Effect.fileAccess "preorders/NYT_preorder_tracking.csv"],
    getPreorderTrackingData file)

/-- `DataService.get_pub_date_overrides()` with its `test_mode`
dispatch. -/
def dsGetPubDateOverrides (testMode : Bool) (today : Nat)
    (disk : Option (PyResult (List DiskRow))) :
    List Effect × List (Cell × String) :=
  if testMode then ([], testPubDateOverrides today)
  else ([Effect.fileAccess "overrides/pub_date_overrides.csv"],
    getPubDateOverridesMap disk)

/-- `DataService.get_approval_status()` with its `test_mode` dispatch. -/
def dsGetApprovalStatus (testMode : Bool)
    (issuesRes : PyResult (List RawIssue)) : List Effect × List ApprovalIssue :=
  if testMode then ([], testApprovalStatus)
  else ([Effect.networkCall "github"], getApprovalStatus issuesRes)

theorem firstSuccess_eq_none {α : Type} {l : List (AttemptOutcome α)}
    (h : ∀ o ∈ l, attemptPayload o = none) : firstSuccess l = none := by
  induction l with
  | nil => rfl
  | cons o rest ih =>
    have ho := h o (List.mem_cons_self o rest)
    simp only [firstSuccess, ho]
    exact ih fun x hx => h x (List.mem_cons_of_mem o hx)

theorem firstSuccess_append {α : Type} (l1 l2 : List (AttemptOutcome α)) :
    firstSuccess (l1 ++ l2) =
      match firstSuccess l1 with
      | some p => some p
      | none => firstSuccess l2 := by
  induction l1 with
  | nil => rfl
  | cons o rest ih =>
    simp only [List.cons_append, firstSuccess]
    cases attemptPayload o with
    | some p => rfl
    | none => exact ih

/-- Claim C3: within the retry bound, the loop returns the payload of the
first successful attempt; if every attempt up to the bound fails (non-200
status, `errors` payload, or transport exception) it raises the terminal
error whose message names the attempt count, rather than returning a
default value. -/
theorem c3_retry_policy (α : Type) :
    (∀ (mr : Nat) (att : Nat → AttemptOutcome α) (i : Nat) (p : α),
      i < mr → (∀ j, j < i → attemptPayload (att j) = none) →
      att i = AttemptOutcome.success p →
      runQueryWithRetries mr att = Except.ok p) ∧
    (∀ (mr : Nat) (att : Nat → AttemptOutcome α),
      (∀ i, i < mr → attemptPayload (att i) = none) →
      runQueryWithRetries mr att =
        Except.error ("Failed to execute query after " ++ toString mr ++ " attempts")) := by
  constructor
  · intro mr att i p hi hbefore hsucc
    obtain ⟨k, rfl⟩ : ∃ k, mr = i + (k + 1) :=
      ⟨mr - i - 1, by omega⟩
    have hrange : List.range (i + (k + 1)) =
        List.range i ++ (List.range (k + 1)).map (i + ·) := List.range_add i (k + 1)
    unfold runQueryWithRetries
    rw [hrange, List.map_append, firstSuccess_append]
    have hnone : firstSuccess ((List.range i).map att) = none := by
      apply firstSuccess_eq_none
      intro o ho
      obtain ⟨j, hj, rfl⟩ := List.mem_map.mp ho
      exact hbefore j (List.mem_range.mp hj)
    rw [hnone]
    have hhead : (List.range (k + 1)).map (i + ·) = i :: ((List.range k).map (fun j => i + (j + 1))) := by
      rw [List.range_succ_eq_map]
      simp [List.map_map, Function.comp]
    rw [hhead]
    simp only [List.map_cons, firstSuccess, hsucc, attemptPayload]
  · intro mr att hall
    unfold runQueryWithRetries
    have hnone : firstSuccess ((List.range mr).map att) = none := by
      apply firstSuccess_eq_none
      intro o ho
      obtain ⟨j, hj, rfl⟩ := List.mem_map.mp ho
      exact hall j (List.mem_range.mp hj)
    rw [hnone]

/-- Witness for C3 at `max_retries = 3`: fail, fail, success returns the
payload; three failures raise the error naming 3 attempts. -/
theorem c3_retry_policy_witness :
    runQueryWithRetries 3 attemptsThenSuccess = Except.ok 42 ∧
    runQueryWithRetries 3 attemptsAllFail =
      Except.error "Failed to execute query after 3 attempts" := by
  constructor
  · exact (c3_retry_policy Nat).1 3 attemptsThenSuccess 2 42 (by decide)
      (by intro j hj; interval_cases j <;> rfl) (by rfl)
  · exact (c3_retry_policy Nat).2 3 attemptsAllFail (fun i _ => rfl)

/-- Claim C9 (implicit): for every outcome of the underlying query —
including retry exhaustion, whose exception is caught inside the
connector — `get_products_from_collection` returns a list, never raises
and never returns `None`; consequently `get_preorder_products` returns
exactly the connector's list and neither the `None`-check branch nor the
exception-handler branch (both of which substitute sample data) can be
triggered by a failure of this connector call. -/
theorem c9_connector_total (maxRetries : Nat)
    (att : Nat → AttemptOutcome CollectionData) (today limit : Nat) :
    shopifyCollectionObservable maxRetries att =
      ConnectorResult.returns (some (getProductsFromCollection maxRetries att)) ∧
    getPreorderProducts today limit (shopifyCollectionObservable maxRetries att) =
      getProductsFromCollection maxRetries att := by
  unfold shopifyCollectionObservable getProductsFromCollection getPreorderProducts
  cases getProductsBody maxRetries att with
  | ok ps => exact ⟨rfl, rfl⟩
  | error m => exact ⟨rfl, rfl⟩

/-- Claim C1, counterexample: a successful connector call that returns
zero products is NOT replaced by sample data — the facade returns the
empty list unchanged, while the sample dataset at the same inputs holds
five products.  (`20000` is a concrete day: 2024-10-04.) -/
theorem c1_counterexample :
    getPreorderProducts 20000 100 (ConnectorResult.returns (some [])) = [] ∧
    (testPreorderProducts 20000 100).length = 5 := by
  exact ⟨rfl, by decide⟩

/-- Claim C1, amended: in non-test mode `get_preorder_products(limit)`
falls back to the fixed sample dataset exactly when the connector call
raises or returns `None`; a successful call is returned unchanged, even
when it yields zero products. -/
theorem c1_fallback_policy (today limit : Nat) (msg : String)
    (ps : List Product) :
    getPreorderProducts today limit (ConnectorResult.raises msg) =
      testPreorderProducts today limit ∧
    getPreorderProducts today limit (ConnectorResult.returns none) =
      testPreorderProducts today limit ∧
    getPreorderProducts today limit (ConnectorResult.returns (some ps)) = ps :=
  ⟨rfl, rfl, rfl⟩

theorem digit_not_regexSpace {c : Char} (h : c.isDigit = true) :
    isRegexSpace c = false := by
  unfold isRegexSpace
  simp only [Bool.or_eq_false_iff, beq_eq_false_iff_ne]
  refine ⟨⟨⟨⟨⟨?_, ?_⟩, ?_⟩, ?_⟩, ?_⟩, ?_⟩ <;> rintro rfl <;> exact absurd h (by decide)

theorem skipSpaces_cons_of_not_space {c : Char} (l : List Char)
    (h : isRegexSpace c = false) : skipSpaces (c :: l) = c :: l := by
  simp [skipSpaces, h]

theorem isRegexSpace_space : isRegexSpace ' ' = true := rfl

theorem isRegexSpace_lbrack : isRegexSpace '[' = false := rfl

theorem isRegexSpace_pipe : isRegexSpace '|' = false := rfl

theorem skipSpaces_space_cons (l : List Char) :
    skipSpaces (' ' :: l) = skipSpaces l := by
  simp [skipSpaces, isRegexSpace_space]

theorem takeDigits_append (l rest : List Char)
    (hl : ∀ c ∈ l, c.isDigit = true)
    (hr : ∀ c, rest.head? = some c → c.isDigit = false) :
    takeDigits (l ++ rest) = (l, rest) := by
  induction l with
  | nil =>
    cases rest with
    | nil => rfl
    | cons c cs => simp [takeDigits, hr c rfl]
  | cons c l ih =>
    have hc := hl c (List.mem_cons_self c l)
    have ih' := ih fun x hx => hl x (List.mem_cons_of_mem c hx)
    simp only [List.cons_append, takeDigits, hc, if_true, List.append_eq, ih']

/-- A table row `| [x] …` (or `[X]`): the checked-box search succeeds at
position 0. -/
theorem searchChecked_row (x : Char) (hx : x = 'x' ∨ x = 'X') (t : List Char) :
    searchChecked ('|' :: ' ' :: '[' :: x :: ']' :: t) = true := by
  have hm : matchCheckedAt ('|' :: ' ' :: '[' :: x :: ']' :: t) = true := by
    show checkedAfterPipe (skipSpaces (' ' :: '[' :: x :: ']' :: t)) = true
    rw [skipSpaces_space_cons, skipSpaces_cons_of_not_space _ isRegexSpace_lbrack]
    show (x == 'x' || x == 'X') = true
    rcases hx with rfl | rfl <;> rfl
  show (matchCheckedAt ('|' :: ' ' :: '[' :: x :: ']' :: t) ||
    searchChecked (' ' :: '[' :: x :: ']' :: t)) = true
  rw [hm, Bool.true_or]

/-- A table row `| [x] | <digits> …` (or `[X]`): the capture search
returns exactly the digit run of the second column. -/
theorem searchIsbn_row (x : Char) (hx : x = 'x' ∨ x = 'X')
    (ds : List Char) (hne : ds ≠ []) (hdig : ∀ c ∈ ds, c.isDigit = true)
    (r : List Char) :
    searchIsbn ('|' :: ' ' :: '[' :: x :: ']' :: ' ' :: '|' :: ' ' ::
        (ds ++ ' ' :: '|' :: r)) = some (String.mk ds) := by
  obtain ⟨d, ds', rfl⟩ := List.exists_cons_of_ne_nil hne
  have hd := hdig d (List.mem_cons_self d ds')
  rw [List.cons_append]
  have hm : matchIsbnAt ('|' :: ' ' :: '[' :: x :: ']' :: ' ' :: '|' :: ' ' ::
      d :: (ds' ++ ' ' :: '|' :: r)) = some (String.mk (d :: ds')) := by
    show isbnAfterPipe (skipSpaces (' ' :: '[' :: x :: ']' :: ' ' :: '|' :: ' ' ::
      d :: (ds' ++ ' ' :: '|' :: r))) = some (String.mk (d :: ds'))
    rw [skipSpaces_space_cons, skipSpaces_cons_of_not_space _ isRegexSpace_lbrack]
    show (if x == 'x' || x == 'X' then
        isbnAfterBox (skipSpaces (' ' :: '|' :: ' ' :: d :: (ds' ++ ' ' :: '|' :: r)))
      else none) = some (String.mk (d :: ds'))
    have hxb : (x == 'x' || x == 'X') = true := by
      rcases hx with rfl | rfl <;> rfl
    rw [hxb, if_pos rfl, skipSpaces_space_cons,
      skipSpaces_cons_of_not_space _ isRegexSpace_pipe]
    show captureDigits (skipSpaces (' ' :: d :: (ds' ++ ' ' :: '|' :: r))) =
      some (String.mk (d :: ds'))
    rw [skipSpaces_space_cons,
      skipSpaces_cons_of_not_space _ (digit_not_regexSpace hd)]
    show captureDigits ((d :: ds') ++ ' ' :: '|' :: r) = some (String.mk (d :: ds'))
    unfold captureDigits
    rw [takeDigits_append (d :: ds') (' ' :: '|' :: r) hdig
      (fun c hc => by cases hc; decide)]
  show (match matchIsbnAt ('|' :: ' ' :: '[' :: x :: ']' :: ' ' :: '|' :: ' ' ::
      d :: (ds' ++ ' ' :: '|' :: r)) with
    | some s => some s
    | none => searchIsbn (' ' :: '[' :: x :: ']' :: ' ' :: '|' :: ' ' ::
        d :: (ds' ++ ' ' :: '|' :: r))) = some (String.mk (d :: ds'))
  rw [hm]

theorem data_ne_nil_of_ne_empty {s : String} (h : s ≠ "") : s.data ≠ [] := by
  intro hd
  apply h
  cases s with
  | mk l =>
    simp only at hd
    subst hd
    rfl

/-- One checked table row, as a `String`: the line contributes exactly the
digit run of its second column. -/
theorem lineContribution_row (x : Char) (hx : x = 'x' ∨ x = 'X')
    (s r : String) (hne : s ≠ "") (hdig : ∀ c ∈ s.data, c.isDigit = true) :
    lineContribution (String.mk ('|' :: ' ' :: '[' :: x :: ']' :: ' ' :: '|' :: ' ' ::
      (s.data ++ ' ' :: '|' :: r.data))) = some s := by
  unfold lineContribution
  have hdata : (String.mk ('|' :: ' ' :: '[' :: x :: ']' :: ' ' :: '|' :: ' ' ::
      (s.data ++ ' ' :: '|' :: r.data))).data =
      '|' :: ' ' :: '[' :: x :: ']' :: ' ' :: '|' :: ' ' ::
      (s.data ++ ' ' :: '|' :: r.data) := rfl
  rw [hdata, searchChecked_row x hx, if_pos rfl,
    searchIsbn_row x hx s.data (data_ne_nil_of_ne_empty hne) hdig r.data]

theorem row_string_eq (x : Char) (s r : String) :
    String.mk ('|' :: ' ' :: '[' :: x :: ']' :: ' ' :: '|' :: ' ' ::
      (s.data ++ ' ' :: '|' :: r.data)) =
    (String.mk ['|', ' ', '[', x, ']', ' ', '|', ' ']) ++ s ++ " |" ++ r := by
  apply String.ext
  show _ = ((String.mk ['|', ' ', '[', x, ']', ' ', '|', ' ']).data ++ s.data ++
    " |".data ++ r.data)
  simp [String.data_append]

/-- Claim C5: `_parse_issue_body` collects, over the newline-split lines,
exactly the per-line contributions; a line of the form
`| [x] | <digits> |…` contributes its digit run, and a line with no
checked-box match contributes nothing. -/
theorem c5_parse_issue_body :
    (∀ body : String,
      parseIssueBody body = (body.splitOn "\n").filterMap lineContribution) ∧
    (∀ s r : String, s ≠ "" → (∀ c ∈ s.data, c.isDigit = true) →
      lineContribution ("| [x] | " ++ s ++ " |" ++ r) = some s) ∧
    (∀ line : String, searchChecked line.data = false →
      lineContribution line = none) := by
  refine ⟨fun _ => rfl, fun s r hne hdig => ?_, fun line h => ?_⟩
  · have := lineContribution_row 'x' (Or.inl rfl) s r hne hdig
    rwa [row_string_eq 'x' s r] at this
  · simp [lineContribution, h]

/-- Witness for C5: the spec's example line yields its ISBN; an
unchecked row yields nothing. -/
theorem c5_parse_issue_body_witness :
    lineContribution "| [x] | 9780262551311 | Modern Chinese Foodways |" =
      some "9780262551311" ∧
    lineContribution "| [ ] | 9784756256522 | Fishes of Edo |" = none := by
  constructor
  · exact c5_parse_issue_body.2.1 "9780262551311" " Modern Chinese Foodways |"
      (by decide) (by decide)
  · exact c5_parse_issue_body.2.2 "| [ ] | 9784756256522 | Fishes of Edo |"
      (by decide)

/-- Claim C10 (implicit): checkbox matching is case-insensitive — an
uppercase `| [X] | <digits> |…` row contributes its ISBN exactly like the
lowercase form. -/
theorem c10_uppercase_checkbox (s r : String) (hne : s ≠ "")
    (hdig : ∀ c ∈ s.data, c.isDigit = true) :
    lineContribution ("| [X] | " ++ s ++ " |" ++ r) = some s ∧
    lineContribution ("| [X] | " ++ s ++ " |" ++ r) =
      lineContribution ("| [x] | " ++ s ++ " |" ++ r) := by
  have hX := lineContribution_row 'X' (Or.inr rfl) s r hne hdig
  have hx := lineContribution_row 'x' (Or.inl rfl) s r hne hdig
  rw [row_string_eq 'X' s r] at hX
  rw [row_string_eq 'x' s r] at hx
  exact ⟨hX, hX.trans hx.symm⟩

/-- Witness for C10: a concrete uppercase checked row is approved. -/
theorem c10_uppercase_checkbox_witness :
    lineContribution "| [X] | 9780262551311 | Modern Chinese Foodways |" =
      some "9780262551311" :=
  (c10_uppercase_checkbox "9780262551311" " Modern Chinese Foodways |"
    (by decide) (by decide)).1

/-- Claim C2 fails on the code: after `update(k, d1); update(k, d2)` with
the all-digit ISBN `k = "9781234567890"`, the file holds TWO rows for
`k` — the re-read parses the ISBN column as integers, the string
membership test misses, and a duplicate row is appended — and the first
row still carries `d1`. -/
theorem c2_duplicate_override_rows :
    countIsbnRows overridesAfterSecondCall "9781234567890" = 2 ∧
    overridesAfterSecondCall.map DiskRow.corrected = ["2025-01-01", "2025-02-01"] := by
  exact ⟨by decide, by decide⟩

theorem countMemRows_eq (mem : List MemRow) (k : String) :
    countMemRows mem k = mem.countP (fun r => cellEqStr r.isbn k) := rfl

theorem updateFirstRow_of_head_match {r : MemRow} {rest : List MemRow}
    {k d now : String} (hr : cellEqStr r.isbn k = true) :
    updateFirstRow (r :: rest) k d now =
      { r with corrected := d, updatedAt := now } :: rest := by
  simp only [updateFirstRow]
  rw [if_pos hr]

theorem updateFirstRow_of_head_miss {r : MemRow} {rest : List MemRow}
    {k d now : String} (hr : cellEqStr r.isbn k = false) :
    updateFirstRow (r :: rest) k d now = r :: updateFirstRow rest k d now := by
  simp only [updateFirstRow]
  rw [if_neg (by simp [hr])]

theorem upsertMem_single_row (mem : List MemRow) (k d now : String)
    (h : countMemRows mem k ≤ 1) :
    countMemRows (upsertMem mem k d now) k = 1 ∧
    ∀ r ∈ upsertMem mem k d now, cellEqStr r.isbn k = true → r.corrected = d := by
  unfold upsertMem
  by_cases hany : mem.any (fun r => cellEqStr r.isbn k) = true
  · rw [if_pos hany]
    induction mem with
    | nil => simp at hany
    | cons r rest ih =>
      by_cases hr : cellEqStr r.isbn k = true
      · have hzero : countMemRows rest k = 0 := by
          rw [countMemRows_eq] at h ⊢
          rw [List.countP_cons] at h
          simp only [hr, eq_self_iff_true, if_true] at h
          omega
        have hnone : ∀ x ∈ rest, cellEqStr x.isbn k = false := by
          intro x hx
          have := List.countP_eq_zero.mp hzero x hx
          revert this
          cases cellEqStr x.isbn k <;> simp
        rw [updateFirstRow_of_head_match hr]
        constructor
        · rw [countMemRows_eq]
          rw [countMemRows_eq] at hzero
          rw [List.countP_cons]
          simp only [hr, eq_self_iff_true, if_true]
          omega
        · intro x hx hcx
          rcases List.mem_cons.mp hx with rfl | hx'
          · rfl
          · exact absurd hcx (by simp [hnone x hx'])
      · have hrf : cellEqStr r.isbn k = false := by
          revert hr
          cases cellEqStr r.isbn k <;> simp
        have hany' : rest.any (fun r => cellEqStr r.isbn k) = true := by
          rcases List.any_eq_true.mp hany with ⟨x, hx, hcx⟩
          rcases List.mem_cons.mp hx with rfl | hx'
          · exact absurd hcx (by simp [hrf])
          · exact List.any_eq_true.mpr ⟨x, hx', hcx⟩
        have h' : countMemRows rest k ≤ 1 := by
          rw [countMemRows_eq] at h ⊢
          rw [List.countP_cons] at h
          simp only [hrf, Bool.false_eq_true, if_false] at h
          omega
        have ihres := ih h' hany'
        rw [updateFirstRow_of_head_miss hrf]
        constructor
        · rw [countMemRows_eq]
          rw [List.countP_cons]
          simp only [hrf, Bool.false_eq_true, if_false, Nat.add_zero]
          exact ihres.1
        · intro x hx hcx
          rcases List.mem_cons.mp hx with rfl | hx'
          · exact absurd hcx (by simp [hrf])
          · exact ihres.2 x hx' hcx
  · rw [if_neg hany]
    have hnone : ∀ x ∈ mem, cellEqStr x.isbn k = false := by
      intro x hx
      by_contra hcx
      exact hany (List.any_eq_true.mpr ⟨x, hx, by revert hcx; cases cellEqStr x.isbn k <;> simp⟩)
    have hzero : countMemRows mem k = 0 := by
      rw [countMemRows_eq]
      exact List.countP_eq_zero.mpr fun x hx => by simp [hnone x hx]
    constructor
    · rw [countMemRows_eq]
      rw [countMemRows_eq] at hzero
      rw [List.countP_append, hzero]
      simp [List.countP_cons, cellEqStr]
    · intro x hx hcx
      rcases List.mem_append.mp hx with hx' | hx'
      · exact absurd hcx (by simp [hnone x hx'])
      · rcases List.mem_singleton.mp hx' with rfl
        rfl

/-- Witness for the in-memory upsert lemma at a concrete state. -/
theorem upsertMem_single_row_witness :
    countMemRows (upsertMem [] "9781234567890" "2025-01-01" "t1") "9781234567890" = 1 :=
  (upsertMem_single_row [] "9781234567890" "2025-01-01" "t1" (by decide)).1

theorem charListLt_irrefl (l : List Char) : charListLt l l = false := by
  induction l with
  | nil => rfl
  | cons a as ih => simp [charListLt, lt_irrefl, ih]

theorem charListLt_trans (a b c : List Char) (hab : charListLt a b = true)
    (hbc : charListLt b c = true) : charListLt a c = true := by
  induction a generalizing b c with
  | nil =>
    cases b with
    | nil => simp [charListLt] at hab
    | cons y ys =>
      cases c with
      | nil => simp [charListLt] at hbc
      | cons z zs => rfl
  | cons x xs ih =>
    cases b with
    | nil => simp [charListLt] at hab
    | cons y ys =>
      cases c with
      | nil => simp [charListLt] at hbc
      | cons z zs =>
        simp only [charListLt] at hab hbc ⊢
        by_cases hxy : x < y
        · by_cases hyz : y < z
          · rw [if_pos (lt_trans hxy hyz)]
          · by_cases hzy : z < y
            · rw [if_neg hyz, if_pos hzy] at hbc
              cases hbc
            · have : y = z := le_antisymm (le_of_not_lt hzy) (le_of_not_lt hyz)
              subst this
              rw [if_pos hxy]
        · by_cases hyx : y < x
          · rw [if_neg hxy, if_pos hyx] at hab
            cases hab
          · have : x = y := le_antisymm (le_of_not_lt hyx) (le_of_not_lt hxy)
            subst this
            rw [if_neg (lt_irrefl x), if_neg (lt_irrefl x)] at hab
            by_cases hxz : x < z
            · rw [if_pos hxz]
            · by_cases hzx : z < x
              · rw [if_neg hxz, if_pos hzx] at hbc
                cases hbc
              · have : x = z := le_antisymm (le_of_not_lt hzx) (le_of_not_lt hxz)
                subst this
                rw [if_neg (lt_irrefl x), if_neg (lt_irrefl x)] at hbc ⊢
                exact ih ys zs hab hbc

theorem charListLt_notLt_trans (a b c : List Char)
    (hab : charListLt a b = false) (hbc : charListLt b c = false) :
    charListLt a c = false := by
  induction a generalizing b c with
  | nil =>
    cases c with
    | nil => rfl
    | cons z zs =>
      cases b with
      | nil => cases hbc
      | cons y ys => cases hab
  | cons x xs ih =>
    cases c with
    | nil => rfl
    | cons z zs =>
      cases b with
      | nil => cases hbc
      | cons y ys =>
        simp only [charListLt] at hab hbc ⊢
        have hxy : ¬ x < y := fun hc => by rw [if_pos hc] at hab; cases hab
        have hyz : ¬ y < z := fun hc => by rw [if_pos hc] at hbc; cases hbc
        by_cases hxz : x < z
        · exact absurd (lt_of_lt_of_le hxz (le_of_not_lt hyz)) hxy
        · rw [if_neg hxz]
          by_cases hzx : z < x
          · rw [if_pos hzx]
          · rw [if_neg hzx]
            have hxz' : x = z := le_antisymm (le_of_not_lt hzx) (le_of_not_lt hxz)
            subst hxz'
            by_cases hyx : y < x
            · rw [if_pos hyx] at hbc
              cases hbc
            · have : x = y := le_antisymm (le_of_not_lt hyx) (le_of_not_lt hxy)
              subst this
              rw [if_neg (lt_irrefl x), if_neg (lt_irrefl x)] at hab hbc
              exact ih ys zs hab hbc

theorem pickGo_mem {α : Type} (b : String × α) (l : List (String × α)) :
    pickGo b l ∈ b :: l := by
  induction l generalizing b with
  | nil => exact List.mem_cons_self b []
  | cons f rest ih =>
    show pickGo (if strLt b.1 f.1 then f else b) rest ∈ b :: f :: rest
    by_cases hbf : strLt b.1 f.1 = true
    · rw [if_pos hbf]
      exact List.mem_cons_of_mem b (ih f)
    · rw [if_neg hbf]
      rcases List.mem_cons.mp (ih b) with h | h
      · exact List.mem_cons.mpr (Or.inl h)
      · exact List.mem_cons_of_mem b (List.mem_cons_of_mem f h)

theorem pickGo_notLt {α : Type} (b : String × α) (l : List (String × α)) :
    ∀ x ∈ b :: l, charListLt (pickGo b l).1.data x.1.data = false := by
  induction l generalizing b with
  | nil =>
    intro x hx
    rcases List.mem_cons.mp hx with rfl | h
    · exact charListLt_irrefl _
    · cases h
  | cons f rest ih =>
    intro x hx
    show charListLt (pickGo (if strLt b.1 f.1 then f else b) rest).1.data x.1.data = false
    by_cases hbf : strLt b.1 f.1 = true
    · rw [if_pos hbf]
      rcases List.mem_cons.mp hx with hxb | hx'
      · -- x = b: the picked name is not below f, and b is below f
        rw [hxb]
        have hr_f := ih f f (List.mem_cons_self f rest)
        cases hrb : charListLt (pickGo f rest).1.data b.1.data with
        | false => rfl
        | true =>
          have hbf2 : charListLt b.1.data f.1.data = true := hbf
          have := charListLt_trans _ _ _ hrb hbf2
          rw [this] at hr_f
          cases hr_f
      · exact ih f x hx'
    · rw [if_neg hbf]
      have hbf' : charListLt b.1.data f.1.data = false := by
        cases hh : charListLt b.1.data f.1.data with
        | false => rfl
        | true => exact absurd hh hbf
      rcases List.mem_cons.mp hx with hxb | hx'
      · rw [hxb]
        exact ih b b (List.mem_cons_self b rest)
      · rcases List.mem_cons.mp hx' with hxf | hx''
        · -- x = f: the picked name is not below b, and b is not below f
          rw [hxf]
          exact charListLt_notLt_trans _ _ _
            (ih b b (List.mem_cons_self b rest)) hbf'
        · exact ih b x (List.mem_cons_of_mem b hx'')

/-- Claim C4: `get_pending_releases()` selects the lexicographically
largest `pending_releases_*.json` filename and returns its parsed
contents; a missing directory, no matching file, or a failed read/parse
yields the structured empty result.  The selected name `nm` is maximal:
no matching filename is lexicographically greater. -/
theorem c4_latest_pending_file :
    getPendingReleases none = emptyPendingResult ∧
    ∀ files : List (String × Option PendingDoc),
      (matchingPendingFiles files = [] →
        getPendingReleases (some files) = emptyPendingResult) ∧
      (∀ nm doc, pickLatest (matchingPendingFiles files) = some (nm, doc) →
        (nm, doc) ∈ matchingPendingFiles files ∧
        (∀ x ∈ matchingPendingFiles files, charListLt nm.data x.1.data = false) ∧
        getPendingReleases (some files) =
          (match doc with
           | some d => d
           | none => emptyPendingResult)) := by
  refine ⟨rfl, fun files => ⟨fun h => ?_, fun nm doc h => ?_⟩⟩
  · show (match pickLatest (matchingPendingFiles files) with
      | none => emptyPendingResult
      | some (_, some doc) => doc
      | some (_, none) => emptyPendingResult) = emptyPendingResult
    rw [h]
    rfl
  · refine ⟨?_, ?_, ?_⟩
    · cases hm : matchingPendingFiles files with
      | nil => rw [hm] at h; cases h
      | cons f rest =>
        rw [hm] at h
        have h' : pickGo f rest = (nm, doc) := Option.some.inj h
        rw [← h']
        exact pickGo_mem f rest
    · intro x hx
      cases hm : matchingPendingFiles files with
      | nil => rw [hm] at h; cases h
      | cons f rest =>
        rw [hm] at h hx
        have h' : pickGo f rest = (nm, doc) := Option.some.inj h
        have := pickGo_notLt f rest x hx
        rw [h'] at this
        exact this
    · cases doc with
      | some d =>
        show (match pickLatest (matchingPendingFiles files) with
          | none => emptyPendingResult
          | some (_, some doc) => doc
          | some (_, none) => emptyPendingResult) = d
        rw [h]
      | none =>
        show (match pickLatest (matchingPendingFiles files) with
          | none => emptyPendingResult
          | some (_, some doc) => doc
          | some (_, none) => emptyPendingResult) = emptyPendingResult
        rw [h]

/-- Witness for C4: with both example files present, the February file
wins and its contents are returned. -/
theorem c4_latest_pending_file_witness :
    getPendingReleases (some auditListingExample) = febDoc := by
  have h := (c4_latest_pending_file.2 auditListingExample).2
    "pending_releases_2025-02-01.json" (some febDoc) (by decide)
  exact h.2.2

/-- Claim C7, counterexample: `get_recent_files` returns the file with
the NEWEST MTIME first, not the lexicographically-last matching
filename — here the January file (mtime 200) is returned as most
recent although the February name is lexicographically last. -/
theorem c7_counterexample :
    get_recent_files "audit" true (PyResult.ok recentEntriesExample)
      (some "pending_releases_") (some ".json") 1 =
      PyResult.ok ["audit/pending_releases_2025-01-01.json"] ∧
    strLt "pending_releases_2025-01-01.json" "pending_releases_2025-02-01.json" = true := by
  exact ⟨by decide, by decide⟩

/-- Claim C7, amended: `get_recent_files` returns the matching entries
sorted by modification time descending (a stable sort: the result is a
permutation of the matching entries and is sorted by `mtimeGe`),
truncated to `count` and joined with the directory path. -/
theorem c7_recent_files_by_mtime (dir : String) (entries : List FileEntry)
    (pre suf : Option String) (count : Nat) :
    get_recent_files dir true (PyResult.ok entries) pre suf count =
      PyResult.ok (((sortByMtimeDesc (matchingEntries entries pre suf)).take count).map
        fun e => dir ++ "/" ++ e.name) ∧
    List.Sorted mtimeGe (sortByMtimeDesc (matchingEntries entries pre suf)) ∧
    List.Perm (sortByMtimeDesc (matchingEntries entries pre suf))
      (matchingEntries entries pre suf) :=
  ⟨rfl, List.sorted_insertionSort mtimeGe _, List.perm_insertionSort mtimeGe _⟩

/-- Claim C8, counterexample: a directory-creation failure in
`write_json` happens before the `try` block and propagates to the
caller as a raised exception instead of returning `False`. -/
theorem c8_counterexample :
    write_json (PyResult.raised "PermissionError: [Errno 13] Permission denied")
      (PyResult.ok ()) =
      PyResult.raised "PermissionError: [Errno 13] Permission denied" ∧
    (write_json (PyResult.raised "PermissionError: [Errno 13] Permission denied")
      (PyResult.ok ())).isRaised = true :=
  ⟨rfl, rfl⟩

/-- Claim C8, amended: every failure inside a guarded body is converted
to the documented default — the read-side operations (`read_json`,
`read_csv`, `get_recent_files`, `backup_file`) never raise for any
outcome, and the write-side operations (`write_json`, `write_csv`,
`append_csv`) never raise once their pre-`try` directory creation has
succeeded; only that pre-`try` `os.makedirs` failure propagates. -/
theorem c8_error_boundary :
    (∀ (α : Type) (ex : Bool) (r : PyResult α) (d : α),
      (read_json ex r d).isRaised = false) ∧
    (∀ (α : Type) (ex : Bool) (r : PyResult α) (d : α),
      (read_csv ex r d).isRaised = false) ∧
    (∀ (u : Unit) (w : PyResult Unit),
      (write_json (PyResult.ok u) w).isRaised = false) ∧
    (∀ (u : Unit) (w : PyResult Unit),
      (write_csv (PyResult.ok u) w).isRaised = false) ∧
    (∀ (u : Unit) (fe : Bool) (fns : Option (List String))
      (rows : List (List (String × String))) (hr : PyResult (List String))
      (w : PyResult Unit),
      (append_csv (PyResult.ok u) fe fns rows hr w).isRaised = false) ∧
    (∀ (dir : String) (de : Bool) (lr : PyResult (List FileEntry))
      (p s : Option String) (c : Nat),
      (get_recent_files dir de lr p s c).isRaised = false) ∧
    (∀ (fe : Bool) (mk cp : PyResult Unit) (bp : String),
      (backup_file fe mk cp bp).isRaised = false) := by
  refine ⟨?_, ?_, ?_, ?_, ?_, ?_, ?_⟩
  · intro α ex r d
    cases ex <;> cases r <;> rfl
  · intro α ex r d
    cases ex <;> cases r <;> rfl
  · intro u w
    cases w <;> rfl
  · intro u w
    cases w <;> rfl
  · intro u fe fns rows hr w
    rcases fns with _ | (_ | ⟨f, fs⟩) <;> cases fe <;>
      rcases rows with _ | ⟨row, rest⟩ <;> cases hr <;> cases w <;> rfl
  · intro dir de lr p s c
    cases de <;> cases lr <;> rfl
  · intro fe mk cp bp
    cases fe <;> cases mk <;> cases cp <;> rfl

/-- Claim C6, counterexample: the test-mode payload of
`get_preorder_products` is NOT a fixed byte-for-byte constant — its
`pub_date` fields are computed from `datetime.now()`, so two runs
observing consecutive dates (days 20000 and 20001, i.e. 2024-10-04 and
2024-10-05) return payloads whose first `pub_date` differs. -/
theorem c6_counterexample :
    ((dsGetPreorderProducts true 20000 100 (ConnectorResult.returns none)).2.map
      Product.pub_date).head? = some (some "2024-11-03") ∧
    ((dsGetPreorderProducts true 20001 100 (ConnectorResult.returns none)).2.map
      Product.pub_date).head? = some (some "2024-11-04") := by
  exact ⟨by decide, by decide⟩

/-- Claim C6, amended: in test mode every query method performs no
network or file-system effect and its result is the sample payload
determined solely by the current date — in particular the result is
independent of the external environment (two runs against different
environments but the same date return identical payloads). -/
theorem c6_test_mode_hermetic (today limit : Nat)
    (conn conn2 : ConnectorResult (List Product))
    (listing listing2 : Option (List (String × Option PendingDoc)))
    (file file2 : Option (PyResult TrackingFrame))
    (disk disk2 : Option (PyResult (List DiskRow)))
    (iss iss2 : PyResult (List RawIssue)) :
    dsGetPreorderProducts true today limit conn =
      ([], testPreorderProducts today limit) ∧
    dsGetPendingReleases true today listing = ([], testPendingReleases today) ∧
    dsGetPreorderTracking true today file = ([], testTrackingFrame today) ∧
    dsGetPubDateOverrides true today disk = ([], testPubDateOverrides today) ∧
    dsGetApprovalStatus true iss = ([], testApprovalStatus) ∧
    dsGetPreorderProducts true today limit conn =
      dsGetPreorderProducts true today limit conn2 ∧
    dsGetPendingReleases true today listing =
      dsGetPendingReleases true today listing2 ∧
    dsGetPreorderTracking true today file =
      dsGetPreorderTracking true today file2 ∧
    dsGetPubDateOverrides true today disk =
      dsGetPubDateOverrides true today disk2 ∧
    dsGetApprovalStatus true iss = dsGetApprovalStatus true iss2 :=
  ⟨rfl, rfl, rfl, rfl, rfl, rfl, rfl, rfl, rfl, rfl⟩

end PreorderDash

